import Mathlib

/-!
# A verification of the `sage` analysis engine

This file gives a shallow embedding of `sage.py` (the Black Duck "sage"
inventory auditor) and proves properties of it.  Entity records coming from
the REST API are modelled as JSON-like values (`JVal`); the engine state
(`SageState`) mirrors the mutable fields of the `BlackDuckSage` object;
fallible Python code (uncaught exceptions such as `KeyError`/`TypeError`)
is modelled by `Option`, with `none` standing for an exception propagating
out of the corresponding call.  The inventory client (`HubInstance`) is an
external collaborator and is modelled as a record of response values
(`Hub`); a fetch that raises is a `none` result of the corresponding field.
Wall-clock time for the project listing is modelled as a number of whole
seconds carried by the hub (`projectsElapsed`).
-/

set_option autoImplicit false

namespace Sage

/-- JSON-like values, the shape of all records returned by the REST API. -/
inductive JVal where
  | str : String → JVal
  | num : Int → JVal
  | obj : List (String × JVal) → JVal
  | arr : List JVal → JVal
  | null : JVal

/-- A Python dict with string keys, as an association list (first binding wins
on lookup; real records have unique keys). -/
abbrev Dict := List (String × JVal)

/-- Models `d[key]` returning `none` on a missing key (Python `KeyError`). -/
def dlookup : Dict → String → Option JVal
  | [], _ => none
  | (k, v) :: rest, key => if k = key then some v else dlookup rest key

/-- Models `d[key] = val`: replace the binding if the key is present, else append
(Python dict update keeps insertion order). -/
def dset : Dict → String → JVal → Dict
  | [], key, val => [(key, val)]
  | (k, v) :: rest, key, val =>
    if k = key then (key, val) :: rest else (k, v) :: dset rest key val

/-- The last binding of `key` in a list of key/value pairs (used to state what
repeated overrides amount to). -/
def lookupLast : List (String × JVal) → String → Option JVal
  | [], _ => none
  | (k, v) :: rest, key =>
    match lookupLast rest key with
    | some w => some w
    | none => if k = key then some v else none

/-- Models `for k,v in kwargs.items(): d[k] = v` (sage.py lines 69-70). -/
def applyKwargs : Dict → List (String × JVal) → Dict
  | d, [] => d
  | d, (k, v) :: rest => applyKwargs (dset d k v) rest

/-- Models `BlackDuckSage.COMMON_ATTRIBUTES` (sage.py lines 17-18). -/
def COMMON_ATTRIBUTES : List String :=
  ["name", "versionName", "createdAt", "createdBy", "distribution",
   "phase", "scanSize", "settingUpdatedAt", "updatedAt", "updatedBy"]

/-- The loop `for attr in COMMON_ATTRIBUTES: if attr in obj: d[attr] = obj[attr]`
(sage.py lines 62-65), generalized over the attribute list for induction. -/
def buildCommonsAux (obj : Dict) (attrs : List String) (d : Dict) : Dict :=
  match attrs with
  | [] => d
  | a :: rest =>
    match dlookup obj a with
    | some v => buildCommonsAux obj rest (dset d a v)
    | none => buildCommonsAux obj rest d

def buildCommons (obj : Dict) : Dict := buildCommonsAux obj COMMON_ATTRIBUTES []

/-- Models `obj['_meta']['href']` (sage.py line 67): `none` when `_meta` is absent or
not a mapping, or when `href` is absent (Python `KeyError`/`TypeError`). -/
def getHref (obj : Dict) : Option JVal :=
  match dlookup obj "_meta" with
  | some (.obj m) => dlookup m "href"
  | _ => none

/-- Models `BlackDuckSage._copy_common_attributes` (sage.py lines 61-71).  Returns
`none` exactly when `obj['_meta']['href']` raises. -/
def copy_common_attributes (obj : Dict) (kwargs : List (String × JVal)) : Option Dict :=
  match getHref obj with
  | none => none
  | some href => some (applyKwargs (dset (buildCommons obj) "url" href) kwargs)

/-- Models `_copy_common_attributes` applied to an arbitrary value: a non-mapping
argument raises (`obj['_meta']` on a non-dict). -/
def copyCommonJ (v : JVal) (kwargs : List (String × JVal)) : Option Dict :=
  match v with
  | .obj d => copy_common_attributes d kwargs
  | _ => none

/-- Python `str()` on JSON-derived data, as used by `"...".format(x)`.
Faithful for strings and integers (the cases the API produces for names);
container renderings are abbreviated. -/
def pyStr : JVal → String
  | .str s => s
  | .num n => toString n
  | .null => "None"
  | .arr _ => "<list>"
  | .obj _ => "<dict>"

/-- Models `v[key]` on an arbitrary value: raises (`none`) unless `v` is a mapping
containing `key`. -/
def getFieldJ (v : JVal) (key : String) : Option JVal :=
  match v with
  | .obj d => dlookup d key
  | _ => none

/-- Models `if x and 'items' in x: objs = x['items'] else: objs = []`
(sage.py lines 87-90 and 142-145).  A falsy (`None`/empty) result or a
mapping without `items` yields zero items; an `items` field that is not a
list, or a non-mapping result, leads to a later `TypeError` (`none`). -/
def pagedItemsLenient : JVal → Option (List JVal)
  | .null => some []
  | .obj d =>
    match dlookup d "items" with
    | none => some []
    | some (.arr l) => some l
    | some _ => none
  | _ => none

/-- Models `x['items']` with no presence check (sage.py lines 189 and 212):
raises (`none`) when the result is not a mapping with a list under `items`. -/
def strictItems : JVal → Option (List JVal)
  | .obj d =>
    match dlookup d "items" with
    | some (.arr l) => some l
    | _ => none
  | _ => none

/-- Python `x == {}` (sage.py line 226): true iff `x` is an empty dict. -/
def isEmptyPyDict : JVal → Bool
  | .obj [] => true
  | _ => false

/-- Python `set.add`: the reviewed ledgers are modelled as duplicate-free
lists; membership is set membership. -/
def pyInsert (l : List String) (x : String) : List String :=
  if x ∈ l then l else l ++ [x]

/-- Tokenizer underlying Python `str.split()` (no separator): splits on runs
of whitespace, discarding empty tokens.  `acc` holds the current token's
characters in reverse. -/
def wsTokensAux : List Char → List Char → List String
  | [], acc => if acc.isEmpty then [] else [String.mk acc.reverse]
  | c :: cs, acc =>
    if c.isWhitespace then
      if acc.isEmpty then wsTokensAux cs [] else String.mk acc.reverse :: wsTokensAux cs []
    else wsTokensAux cs (c :: acc)

/-- Models `BlackDuckSage._remove_white_space` (sage.py lines 58-59):
`" ".join(message.split())`. -/
def remove_white_space (s : String) : String :=
  " ".intercalate (wsTokensAux s.toList [])

/-- Message of sage.py lines 97-98 (not whitespace-collapsed in the source). -/
def zeroScansMessage (project_name version_name : String) : String :=
  "Project " ++ project_name ++ ", version " ++ version_name ++
    " has 0 scans. Should it be removed?"

/-- Raw (pre-collapse) message of sage.py lines 104-110.  Note the source
formats `self.max_versions_per_project` into the last slot. -/
def tooManyScansMessage (project_name version_name : String)
    (num_scans maxRecommended : Nat) : String :=
  "Project " ++ project_name ++ ", version " ++ version_name ++ " has " ++
    toString num_scans ++ " scans which is greater than \n\t\t\t\t\tthe maximum recommended versions of " ++
    toString maxRecommended ++ ". Review the scans to make sure there are not\n\t\t\t\t\tredundant scans all mapped to this project version. Look for scans with similar names\n\t\t\t\t\tor sizes. If redundant scans are found, you should delete them and update the scanning\n\t\t\t\t\tsetup to use --detect.code.location.name with hub-detect to override scan names and \n\t\t\t\t\tdelete redundant scans."

/-- Message of sage.py line 152 (not whitespace-collapsed in the source). -/
def zeroVersionsMessage (project_name : String) : String :=
  "Project " ++ project_name ++ " has 0 versions. Should it be removed?"

/-- Raw (pre-collapse) message of sage.py lines 156-174, with the two optional
clauses of lines 162-165. -/
def tooManyVersionsMessage (project_name : String)
    (num_versions maxv released archived : Nat) : String :=
  let m := "Project " ++ project_name ++ " has " ++ toString num_versions ++
    " versions which is greater than the recommend maximum of " ++ toString maxv ++ "."
  let m := if released = 0 then m ++ "  There are 0 versions that have been released." else m
  let m := if archived = 0 then m ++ "  There are 0 versions that have been archived." else m
  m ++ "You should review these versions and remove extraneous ones, and their scans, \n\t\t\t\tto reclaim space and reduce clutter. Typically there should be one version per development \n\t\t\t\tbranch, and one version per release.  When new vulnerabilities are published you want\n\t\t\t\tto be able to quickly identify which projects are affected and take action.\n\t\t\t\tKeeping a large number of un-released versions in the system will make that difficult.\n\t\t\t\tAnd accruing a large number of versions per project can lead to serious performance degradation.\n\t\t\t\tLook at https://github.com/blackducksoftware/hub-rest-api-python/tree/master/examples for python examples\n\t\t\t\tfor finding/deleting/removing versions and their scans"

/-- Raw (pre-collapse) message of sage.py lines 221-222 (time in whole
seconds). -/
def slowProjectsMessage (elapsed maxSeconds : Nat) : String :=
  "It took " ++ toString elapsed ++
    " seconds to retrieve all the project info which is greater \n\t\t\t\tthan the recommended max of " ++
    toString maxSeconds ++ " seconds"

/-- Message of sage.py line 230. -/
def unmappedScansMessage : String :=
  "Unmapped scans represent scanning data that is not mapped to any project-version, and hence, they are potentially consuming space that should be reclaimed."

/-- Python `x == p` for a string literal `p`: true iff `x` is that string
(a value of any other type compares unequal without raising). -/
def isStrEq (v : JVal) (p : String) : Bool :=
  match v with
  | .str s => s = p
  | _ => false

/-- Models `len([v for v in items if v['phase'] == p])` (sage.py lines 159-160):
raises (`none`) when some element is not a mapping with a `phase` field;
a non-string phase simply compares unequal. -/
def countPhase (vs : List JVal) (p : String) : Option Nat :=
  match vs with
  | [] => some 0
  | v :: rest =>
    match getFieldJ v "phase" with
    | none => none
    | some ph =>
      match countPhase rest p with
      | none => none
      | some n => some (if isStrEq ph p then n + 1 else n)

/-- Python `str.endswith`, computed on the character lists. -/
def pyEndsWith (s suffix : String) : Bool :=
  suffix.toList.isSuffixOf s.toList

/-- Models `s['name']` where the value must be a string for `.endswith` to work. -/
def scanNameStr (s : JVal) : Option String :=
  match getFieldJ s "name" with
  | some (.str n) => some n
  | _ => none

/-- The comprehension of sage.py lines 113-114:
`[copy(s, project_name=.., version_name=..) for s in scan_objs if s['name'].endswith(suffix)]`. -/
def buildScanInfos (project_name version_name suffix : String) :
    List JVal → Option (List Dict)
  | [] => some []
  | s :: rest =>
    match scanNameStr s with
    | none => none
    | some nm =>
      if pyEndsWith nm suffix then
        match copyCommonJ s [("project_name", JVal.str project_name),
                            ("version_name", JVal.str version_name)] with
        | none => none
        | some info =>
          match buildScanInfos project_name version_name suffix rest with
          | none => none
          | some tail => some (info :: tail)
      else buildScanInfos project_name version_name suffix rest

/-- The mutable analysis state of the `BlackDuckSage` object
(sage.py lines 33-39): all findings, the unmapped-scan snapshot, and the
review ledger.  The two Python `set`s are modelled as duplicate-free lists. -/
structure SageState where
  other_issues : List String
  suspect_projects : List Dict
  suspect_versions : List Dict
  unmapped_scans : JVal
  reviewed_projects : List String
  reviewed_versions : List String

/-- The engine configuration (sage.py lines 24-30, CLI defaults). -/
structure Config where
  max_versions_per_project : Nat := 20
  max_scans_per_version : Nat := 10
  max_time_to_retrieve_projects : Nat := 60

/-- The inventory client collaborator.  A response field holding `none`
models the corresponding REST call raising an exception. -/
structure Hub where
  urlbase : String
  projects : JVal
  projectsElapsed : Nat
  versions : JVal → Option JVal
  codelocations : JVal → Option JVal
  unmapped : JVal

/-- The "new"-mode initial state (sage.py lines 33-39). -/
def initState : SageState :=
  { other_issues := []
    suspect_projects := []
    suspect_versions := []
    unmapped_scans := JVal.obj []
    reviewed_projects := []
    reviewed_versions := [] }

/-- The classifier branch of `analyze_version` (sage.py lines 96-121):
returns the state after the suspect-version decision, before the ledger
update. -/
def analyze_version_classify (cfg : Config) (st : SageState)
    (project_name version_name : String) (scan_objs : List JVal)
    (version_info : Dict) : Option SageState :=
  if scan_objs.length = 0 then
    some { st with suspect_versions := st.suspect_versions ++
      [dset version_info "message" (JVal.str (zeroScansMessage project_name version_name))] }
  else if scan_objs.length > cfg.max_scans_per_version then
    match buildScanInfos project_name version_name "scan" scan_objs,
          buildScanInfos project_name version_name "bom" scan_objs with
    | some sig, some bom =>
      some { st with suspect_versions := st.suspect_versions ++
        [dset (dset (dset version_info
           "message" (JVal.str (remove_white_space
             (tooManyScansMessage project_name version_name scan_objs.length
               cfg.max_versions_per_project))))
           "signature_scan_info" (JVal.arr (sig.map JVal.obj)))
           "bom_scan_info" (JVal.arr (bom.map JVal.obj))] }
    | _, _ => none
  else some st

/-- Models `BlackDuckSage.analyze_version` (sage.py lines 73-123).  A failing scan
fetch is caught and leaves the state unchanged; any other exception
(`KeyError` on `versionName`, a malformed paged result, a missing
`_meta.href`, a malformed scan record) propagates as `none`.  On the
non-exceptional path the version's composite key is added to the ledger
last. -/
def analyze_version (cfg : Config) (hub : Hub) (st : SageState)
    (project_name : String) (version : JVal) : Option SageState :=
  match getFieldJ version "versionName" with
  | none => none
  | some vnv =>
    match hub.codelocations version with
    | none => some st
    | some scans =>
      match pagedItemsLenient scans with
      | none => none
      | some scan_objs =>
        match copyCommonJ version [("project_name", JVal.str project_name)] with
        | none => none
        | some version_info =>
          match analyze_version_classify cfg st project_name (pyStr vnv)
              scan_objs version_info with
          | none => none
          | some st1 =>
            some { st1 with reviewed_versions :=
              (pyInsert st1.reviewed_versions (project_name ++ ":" ++ pyStr vnv)) }

/-- The loop of sage.py lines 180-183: each version not already in the ledger
is run through `analyze_version`. -/
def processVersions (cfg : Config) (hub : Hub) (st : SageState)
    (project_name : String) : List JVal → Option SageState
  | [] => some st
  | v :: rest =>
    match getFieldJ v "versionName" with
    | none => none
    | some nv =>
      match (if project_name ++ ":" ++ pyStr nv ∈ st.reviewed_versions then some st
             else analyze_version cfg hub st project_name v) with
      | none => none
      | some st' => processVersions cfg hub st' project_name rest

/-- The classifier branch of `analyze_project` (sage.py lines 151-178). -/
def analyze_project_classify (cfg : Config) (st : SageState)
    (project_name : String) (version_objs : List JVal)
    (project_info : Dict) : Option SageState :=
  if version_objs.length = 0 then
    some { st with suspect_projects := st.suspect_projects ++
      [dset project_info "message" (JVal.str (zeroVersionsMessage project_name))] }
  else if version_objs.length > cfg.max_versions_per_project then
    match countPhase version_objs "RELEASED", countPhase version_objs "ARCHIVED" with
    | some released, some archived =>
      some { st with suspect_projects := st.suspect_projects ++
        [dset project_info "message" (JVal.str (remove_white_space
          (tooManyVersionsMessage project_name version_objs.length
            cfg.max_versions_per_project released archived)))] }
    | _, _ => none
  else some st

/-- Models `BlackDuckSage.analyze_project` (sage.py lines 125-185).  A failing
version-list fetch is caught and leaves the state unchanged (the project is
then *not* added to the ledger); on the non-exceptional path the project
name is added to the ledger only after the whole version loop has run. -/
def analyze_project (cfg : Config) (hub : Hub) (st : SageState)
    (project : JVal) : Option SageState :=
  match getFieldJ project "name" with
  | none => none
  | some nv =>
    match hub.versions project with
    | none => some st
    | some versions =>
      match pagedItemsLenient versions with
      | none => none
      | some version_objs =>
        match copyCommonJ project [] with
        | none => none
        | some project_info =>
          match analyze_project_classify cfg st (pyStr nv) version_objs project_info with
          | none => none
          | some st1 =>
            match processVersions cfg hub st1 (pyStr nv) version_objs with
            | none => none
            | some st2 =>
              some { st2 with reviewed_projects :=
                (pyInsert st2.reviewed_projects (pyStr nv)) }

/-- The loop of sage.py lines 235-237: each project not already in the ledger
is run through `analyze_project`. -/
def processProjects (cfg : Config) (hub : Hub) (st : SageState) :
    List JVal → Option SageState
  | [] => some st
  | p :: rest =>
    match getFieldJ p "name" with
    | none => none
    | some nv =>
      match (if pyStr nv ∈ st.reviewed_projects then some st
             else analyze_project cfg hub st p) with
      | none => none
      | some st' => processProjects cfg hub st' rest

/-- Models `[self._copy_common_attributes(s) for s in x]` (sage.py line 190). -/
def copyAll : List JVal → Option (List Dict)
  | [] => some []
  | s :: rest =>
    match copyCommonJ s [] with
    | none => none
    | some d =>
      match copyAll rest with
      | none => none
      | some tail => some (d :: tail)

/-- Models `BlackDuckSage.get_unmapped_scans` (sage.py lines 187-191).  Note the
source indexes `['items']` with no presence check. -/
def get_unmapped_scans (hub : Hub) : Option (List Dict) :=
  match strictItems hub.unmapped with
  | none => none
  | some ums => copyAll ums

/-- The document written by `BlackDuckSage._write_results`
(sage.py lines 193-205). -/
def resultsDoc (urlbase : String) (st : SageState) : JVal :=
  JVal.obj
    [("hub_url", JVal.str urlbase),
     ("other_issues", JVal.arr (st.other_issues.map JVal.str)),
     ("unmapped_scans", st.unmapped_scans),
     ("suspect_projects", JVal.arr (st.suspect_projects.map JVal.obj)),
     ("suspect_versions", JVal.arr (st.suspect_versions.map JVal.obj)),
     ("reviewed_projects", JVal.arr (st.reviewed_projects.map JVal.str)),
     ("reviewed_versions", JVal.arr (st.reviewed_versions.map JVal.str))]

/-- Decode a serialized list of strings. -/
def unStrList : List JVal → Option (List String)
  | [] => some []
  | .str s :: rest =>
    match unStrList rest with
    | none => none
    | some tail => some (s :: tail)
  | _ => none

/-- Decode a serialized list of records. -/
def unObjList : List JVal → Option (List Dict)
  | [] => some []
  | .obj d :: rest =>
    match unObjList rest with
    | none => none
    | some tail => some (d :: tail)
  | _ => none

/-- The "resume"-mode branch of `BlackDuckSage.__init__`
(sage.py lines 41-49): read the fields of the saved document, turning the
two reviewed sequences back into sets (`set(...)`, modelled by `dedup`).
A missing field is a `KeyError` (`none`). -/
def loadState (j : JVal) : Option SageState :=
  match j with
  | .obj d =>
    match dlookup d "other_issues", dlookup d "unmapped_scans",
          dlookup d "suspect_projects", dlookup d "suspect_versions",
          dlookup d "reviewed_projects", dlookup d "reviewed_versions" with
    | some (.arr oi), some um, some (.arr sp), some (.arr sv),
      some (.arr rp), some (.arr rv) =>
      match unStrList oi, unObjList sp, unObjList sv, unStrList rp, unStrList rv with
      | some oi', some sp', some sv', some rp', some rv' =>
        some { other_issues := oi'
               suspect_projects := sp'
               suspect_versions := sv'
               unmapped_scans := um
               reviewed_projects := rp'.dedup
               reviewed_versions := rv'.dedup }
      | _, _, _, _, _ => none
    | _, _, _, _, _, _ => none
  | _ => none

/-- The timing check of sage.py lines 220-224: when the project listing took
longer than the configured threshold, append an informational issue. -/
def slowCheck (cfg : Config) (hub : Hub) (st0 : SageState) : SageState :=
  if cfg.max_time_to_retrieve_projects < hub.projectsElapsed then
    { st0 with other_issues := st0.other_issues ++
      [remove_white_space (slowProjectsMessage hub.projectsElapsed
        cfg.max_time_to_retrieve_projects)] }
  else st0

/-- The one-time unmapped-scan snapshot of sage.py lines 226-233: fetched only
when the stored snapshot is the empty dict. -/
def ensureUnmapped (hub : Hub) (st1 : SageState) : Option SageState :=
  if isEmptyPyDict st1.unmapped_scans then
    match get_unmapped_scans hub with
    | none => none
    | some ums => some { st1 with unmapped_scans :=
        (JVal.obj [("message", JVal.str unmappedScansMessage),
                   ("scans", JVal.arr (ums.map JVal.obj))]) }
  else some st1

/-- Models `BlackDuckSage.analyze` (sage.py lines 209-239): list projects (the
`['items']` indexing is unguarded), record a slow-listing issue, fetch the
unmapped-scan snapshot once, then run the project loop.  The final
`_write_results` writes `resultsDoc hub.urlbase` of the returned state. -/
def analyze (cfg : Config) (hub : Hub) (st0 : SageState) : Option SageState :=
  match strictItems hub.projects with
  | none => none
  | some project_objs =>
    match ensureUnmapped hub (slowCheck cfg hub st0) with
    | none => none
    | some st2 => processProjects cfg hub st2 project_objs

/-- Observable events of the interruption path. -/
inductive Event where
  | write : JVal → Event
  | raiseOSError : Event
  | fetch : String → Event

/-- The effect trace of `BlackDuckSage._write_results` (sage.py lines
193-207): a single write of the serialized current state. -/
def write_results_trace (hub : Hub) (st : SageState) : List Event :=
  [Event.write (resultsDoc hub.urlbase st)]

/-- The effect trace of `BlackDuckSage._signal_handler` (sage.py lines
53-56): `self._write_results()` followed by `raise OSError("Interruped")`. -/
def signal_handler_trace (hub : Hub) (st : SageState) : List Event :=
  write_results_trace hub st ++ [Event.raiseOSError]

end Sage

namespace Sage

/-! ## Observation functions and concrete fixtures

`scanNames`/`jvalNames` are observation functions used only to *state*
properties (they read the `name` fields back out of scan records and
findings); the fixtures are concrete inventories used in closed theorems. -/

/-- The names of a list of scan records (`none` when some record lacks a
string `name`). -/
def scanNames : List JVal → Option (List String)
  | [] => some []
  | s :: rest =>
    match scanNameStr s with
    | none => none
    | some n =>
      match scanNames rest with
      | none => none
      | some t => some (n :: t)

/-- The `name` fields of a serialized list of records. -/
def jvalNames : List JVal → Option (List String)
  | [] => some []
  | e :: rest =>
    match getFieldJ e "name" with
    | some (.str n) =>
      match jvalNames rest with
      | none => none
      | some t => some (n :: t)
    | _ => none

/-- The ledger invariant: both Python sets are represented without
duplicates. -/
def NodupLedgers (st : SageState) : Prop :=
  st.reviewed_projects.Nodup ∧ st.reviewed_versions.Nodup

/-- A minimal `_meta.href` field, present on every well-formed record. -/
def metaPair : String × JVal := ("_meta", JVal.obj [("href", JVal.str "u")])

def projV (n : String) : JVal := JVal.obj [("name", JVal.str n), metaPair]

def verV (n : String) : JVal := JVal.obj [("versionName", JVal.str n), metaPair]

def scanV (n : String) : JVal := JVal.obj [("name", JVal.str n), metaPair]

/-- The default configuration (sage.py CLI defaults). -/
def cfgD : Config := {}

/-- The unmapped-scan snapshot produced from an empty unmapped list. -/
def emptyUnmappedSnapshot : JVal :=
  JVal.obj [("message", JVal.str unmappedScansMessage), ("scans", JVal.arr [])]

/-- One project with one version whose scan fetch always raises. -/
def hub1 : Hub :=
  { urlbase := "h"
    projects := JVal.obj [("items", JVal.arr [projV "p1"])]
    projectsElapsed := 0
    versions := fun _ => some (JVal.obj [("items", JVal.arr [verV "v1"])])
    codelocations := fun _ => none
    unmapped := JVal.obj [("items", JVal.arr [])] }

/-- The same inventory as `hub1` but with the scan fetch now succeeding. -/
def hub2 : Hub :=
  { hub1 with codelocations := fun _ => some (JVal.obj [("items", JVal.arr [scanV "s1"])]) }

/-- The state produced by running `analyze` once over `hub1`: the project is
in the ledger although its only version was never classified. -/
def stC1 : SageState :=
  { other_issues := []
    suspect_projects := []
    suspect_versions := []
    unmapped_scans := emptyUnmappedSnapshot
    reviewed_projects := ["p1"]
    reviewed_versions := [] }

/-- An empty inventory whose project listing takes 61 seconds (over the
60-second default threshold). -/
def hubSlow : Hub :=
  { urlbase := "h"
    projects := JVal.obj [("items", JVal.arr [])]
    projectsElapsed := 61
    versions := fun _ => none
    codelocations := fun _ => none
    unmapped := JVal.obj [("items", JVal.arr [])] }

/-- The state produced by running `analyze` once over `hubSlow`. -/
def stSlow1 : SageState :=
  { other_issues := [remove_white_space (slowProjectsMessage 61 60)]
    suspect_projects := []
    suspect_versions := []
    unmapped_scans := emptyUnmappedSnapshot
    reviewed_projects := []
    reviewed_versions := [] }

/-- An empty, fast inventory. -/
def hubTrivial : Hub :=
  { urlbase := "h"
    projects := JVal.obj [("items", JVal.arr [])]
    projectsElapsed := 0
    versions := fun _ => none
    codelocations := fun _ => none
    unmapped := JVal.obj [("items", JVal.arr [])] }

/-- The state produced by running `analyze` once over `hubTrivial`. -/
def stTrivial : SageState :=
  { other_issues := []
    suspect_projects := []
    suspect_versions := []
    unmapped_scans := emptyUnmappedSnapshot
    reviewed_projects := []
    reviewed_versions := [] }

/-- An inventory whose unmapped-scan result has no `items` field. -/
def hubNoItemsUnmapped : Hub :=
  { urlbase := "h"
    projects := JVal.obj [("items", JVal.arr [])]
    projectsElapsed := 0
    versions := fun _ => none
    codelocations := fun _ => none
    unmapped := JVal.obj [("totalCount", JVal.num 0)] }

/-- An inventory whose scan fetch returns a paged result with no `items`
field (and one project/version around it). -/
def hubNoItemsScans : Hub :=
  { urlbase := "h"
    projects := JVal.obj [("items", JVal.arr [projV "p1"])]
    projectsElapsed := 0
    versions := fun _ => some (JVal.obj [("items", JVal.arr [verV "v1"])])
    codelocations := fun _ => some (JVal.obj [("totalCount", JVal.num 0)])
    unmapped := JVal.obj [("items", JVal.arr [])] }

/-- Scan-partition fixture from the spec: exactly one signature scan, one
BOM scan, and one scan matching neither suffix. -/
def scansC7 : List JVal := [scanV "foo-scan", scanV "foo-bom", scanV "other"]

/-- A configuration with `max_scans_per_version = 2`, so three scans exceed
the threshold. -/
def cfgC7 : Config := { max_scans_per_version := 2 }

/-- One project, one version, three scans (`scansC7`). -/
def hubC7 : Hub :=
  { urlbase := "h"
    projects := JVal.obj [("items", JVal.arr [projV "p1"])]
    projectsElapsed := 0
    versions := fun _ => some (JVal.obj [("items", JVal.arr [verV "v1"])])
    codelocations := fun _ => some (JVal.obj [("items", JVal.arr scansC7)])
    unmapped := JVal.obj [("items", JVal.arr [])] }

/-- A configuration telling apart the two thresholds:
`max_scans_per_version = 1`, `max_versions_per_project = 77`. -/
def cfgC10 : Config := { max_versions_per_project := 77, max_scans_per_version := 1 }

/-- One version with two scans, exceeding `cfgC10`'s scan threshold. -/
def hubC10 : Hub :=
  { hubC7 with codelocations :=
      (fun _ => some (JVal.obj [("items", JVal.arr [scanV "a-scan", scanV "b-bom"])])) }

/-- A configuration with `max_scans_per_version = 2` for the boundary check. -/
def cfgC6 : Config := { max_scans_per_version := 2 }

/-- Scan fetch returning exactly two scans (at the threshold). -/
def hubC6a : Hub :=
  { hubC7 with codelocations :=
      (fun _ => some (JVal.obj [("items", JVal.arr [scanV "a-scan", scanV "b-bom"])])) }

/-- Scan fetch returning three scans (one over the threshold). -/
def hubC6b : Hub := hubC7

/-- A record with common fields, a locator, and an extra unrecognized
field. -/
def objC5 : Dict :=
  [("name", JVal.str "n"), ("phase", JVal.str "RELEASED"), metaPair,
   ("extraField", JVal.num 3)]

/-- Overrides colliding with a common field and adding a new one. -/
def kwC5 : List (String × JVal) :=
  [("name", JVal.str "override"), ("project_name", JVal.str "p")]

/-- The state after a second (resumed) run over `hubSlow`: the slow-listing
issue has been recorded twice. -/
def stSlow2 : SageState :=
  { stSlow1 with other_issues :=
      [remove_white_space (slowProjectsMessage 61 60),
       remove_white_space (slowProjectsMessage 61 60)] }

/-- The finding produced for `scansC7` under `cfgC7`. -/
def findingC7 : Dict :=
  [("versionName", JVal.str "v1"), ("url", JVal.str "u"),
   ("project_name", JVal.str "p1"),
   ("message", JVal.str (remove_white_space (tooManyScansMessage "p1" "v1" 3 20))),
   ("signature_scan_info", JVal.arr [JVal.obj
     [("name", JVal.str "foo-scan"), ("url", JVal.str "u"),
      ("project_name", JVal.str "p1"), ("version_name", JVal.str "v1")]]),
   ("bom_scan_info", JVal.arr [JVal.obj
     [("name", JVal.str "foo-bom"), ("url", JVal.str "u"),
      ("project_name", JVal.str "p1"), ("version_name", JVal.str "v1")]])]

/-- The state after classifying the `scansC7` version under `cfgC7`. -/
def stC7 : SageState :=
  { initState with suspect_versions := [findingC7], reviewed_versions := ["p1:v1"] }

/-- The finding produced for `hubC10`'s two scans under `cfgC10`: note the
message quotes `77` (`max_versions_per_project`), not the scan threshold. -/
def findingC10 : Dict :=
  [("versionName", JVal.str "v1"), ("url", JVal.str "u"),
   ("project_name", JVal.str "p1"),
   ("message", JVal.str (remove_white_space (tooManyScansMessage "p1" "v1" 2 77))),
   ("signature_scan_info", JVal.arr [JVal.obj
     [("name", JVal.str "a-scan"), ("url", JVal.str "u"),
      ("project_name", JVal.str "p1"), ("version_name", JVal.str "v1")]]),
   ("bom_scan_info", JVal.arr [JVal.obj
     [("name", JVal.str "b-bom"), ("url", JVal.str "u"),
      ("project_name", JVal.str "p1"), ("version_name", JVal.str "v1")]])]

/-- The state after classifying `hubC10`'s version under `cfgC10`. -/
def stC10 : SageState :=
  { initState with suspect_versions := [findingC10], reviewed_versions := ["p1:v1"] }

/-- An inventory for the interruption scenario: one project `p1` with two
versions.  The scan fetch for `v1` raises — modelling a SIGINT delivered
while `hub.get_version_codelocations(version)` (sage.py line 79) is
executing: the registered handler (lines 50-51) runs, writes the
checkpoint, and its `raise OSError` (line 56) materializes at the
interrupted call, i.e. the fetch raises; the bare `except:` at line 80
sees exactly a raising fetch.  The scan fetch for `v2` succeeds with one
scan. -/
def hub9 : Hub :=
  { urlbase := "h"
    projects := JVal.obj [("items", JVal.arr [projV "p1"])]
    projectsElapsed := 0
    versions := fun _ => some (JVal.obj [("items", JVal.arr [verV "v1", verV "v2"])])
    codelocations := fun v =>
      match getFieldJ v "versionName" with
      | some (JVal.str s) =>
        if s = "v1" then none
        else some (JVal.obj [("items", JVal.arr [scanV "s1-scan"])])
      | _ => none
    unmapped := JVal.obj [("items", JVal.arr [])] }

/-- The engine state at the moment the signal lands during `v1`'s scan
fetch over `hub9`: the unmapped snapshot is already taken, nothing is
reviewed yet.  This is the state the handler serializes. -/
def stMid9 : SageState :=
  { initState with unmapped_scans := emptyUnmappedSnapshot }

/-- The final state of the interrupted-but-continued run over `hub9`: the
run went on to fetch and classify `v2` and to ledger the project. -/
def stFinal9 : SageState :=
  { initState with
    unmapped_scans := emptyUnmappedSnapshot,
    reviewed_projects := ["p1"],
    reviewed_versions := ["p1:v2"] }

/-! ## Dictionary lemmas -/

theorem dlookup_dset (d : Dict) (k : String) (v : JVal) (key : String) :
    dlookup (dset d k v) key = if k = key then some v else dlookup d key := by
  induction d with
  | nil => simp [dset, dlookup]
  | cons p rest ih =>
    obtain ⟨k', v'⟩ := p
    by_cases hk : k' = k
    · subst hk
      by_cases h : k' = key <;> simp [dset, dlookup, h]
    · by_cases h : k' = key
      · subst h
        have hne : k ≠ k' := fun he => hk he.symm
        simp [dset, dlookup, hk, hne]
      · simp [dset, dlookup, hk, h, ih]

theorem applyKwargs_dlookup (kw : List (String × JVal)) (d : Dict) (key : String) :
    dlookup (applyKwargs d kw) key =
      match lookupLast kw key with
      | some w => some w
      | none => dlookup d key := by
  induction kw generalizing d with
  | nil => simp [applyKwargs, lookupLast]
  | cons p rest ih =>
    obtain ⟨k, v⟩ := p
    rw [applyKwargs, ih, lookupLast]
    cases hrest : lookupLast rest key with
    | some w => simp
    | none =>
      by_cases h : k = key
      · subst h
        simp [dlookup_dset]
      · simp [dlookup_dset, h]

theorem buildCommonsAux_not_mem (obj : Dict) (attrs : List String) (d : Dict)
    (key : String) (h : key ∉ attrs) :
    dlookup (buildCommonsAux obj attrs d) key = dlookup d key := by
  induction attrs generalizing d with
  | nil => simp [buildCommonsAux]
  | cons a rest ih =>
    have hka : key ≠ a := fun he => h (he ▸ List.mem_cons_self a rest)
    have hrest : key ∉ rest := fun hm => h (List.mem_cons_of_mem a hm)
    rw [buildCommonsAux]
    cases ho : dlookup obj a with
    | none => exact ih d hrest
    | some v => rw [ih _ hrest, dlookup_dset]; simp [Ne.symm hka]

theorem buildCommonsAux_mem (obj : Dict) (attrs : List String) (d : Dict)
    (key : String) (hmem : key ∈ attrs) (hnd : attrs.Nodup) :
    dlookup (buildCommonsAux obj attrs d) key =
      match dlookup obj key with
      | some v => some v
      | none => dlookup d key := by
  induction attrs generalizing d with
  | nil => cases hmem
  | cons a rest ih =>
    rw [buildCommonsAux]
    rcases List.mem_cons.mp hmem with h | h
    · subst h
      have hrest : key ∉ rest := (List.nodup_cons.mp hnd).1
      cases ho : dlookup obj key with
      | none => rw [buildCommonsAux_not_mem _ _ _ _ hrest]
      | some v =>
        rw [buildCommonsAux_not_mem _ _ _ _ hrest, dlookup_dset]
        simp
    · have hnd' : rest.Nodup := (List.nodup_cons.mp hnd).2
      cases ho : dlookup obj a with
      | none => exact ih _ h hnd'
      | some v =>
        rw [ih _ h hnd']
        cases hk : dlookup obj key with
        | some w => simp
        | none =>
          rw [dlookup_dset]
          have : a ≠ key := by
            intro he; subst he; rw [ho] at hk; cases hk
          simp [this]

theorem COMMON_ATTRIBUTES_nodup : COMMON_ATTRIBUTES.Nodup := by decide

theorem buildCommons_dlookup (obj : Dict) (key : String) :
    dlookup (buildCommons obj) key =
      if key ∈ COMMON_ATTRIBUTES then dlookup obj key else none := by
  by_cases h : key ∈ COMMON_ATTRIBUTES
  · rw [buildCommons, buildCommonsAux_mem obj _ [] key h COMMON_ATTRIBUTES_nodup]
    cases dlookup obj key <;> simp [h, dlookup]
  · rw [buildCommons, buildCommonsAux_not_mem obj _ [] key h]
    simp [h, dlookup]

/-- Full functional characterization of `_copy_common_attributes` on the
non-exceptional path: the result holds exactly the recognized common fields
present in the source, the `url` from `_meta.href`, and the overrides, with
overrides winning every collision. -/
theorem copy_common_attributes_spec (obj : Dict) (kw : List (String × JVal))
    (href : JVal) (h : getHref obj = some href) :
    ∃ r, copy_common_attributes obj kw = some r ∧
      ∀ key, dlookup r key =
        match lookupLast kw key with
        | some w => some w
        | none =>
          if key = "url" then some href
          else if key ∈ COMMON_ATTRIBUTES then dlookup obj key else none := by
  refine ⟨applyKwargs (dset (buildCommons obj) "url" href) kw, ?_, ?_⟩
  · rw [copy_common_attributes, h]
  · intro key
    rw [applyKwargs_dlookup]
    cases lookupLast kw key with
    | some w => simp
    | none =>
      simp only []
      rw [dlookup_dset]
      by_cases hu : key = "url"
      · simp [hu]
      · have hu' : ¬ ("url" = key) := fun he => hu he.symm
        rw [if_neg hu', if_neg hu]
        exact buildCommons_dlookup obj key

end Sage

namespace Sage

/-! ## Ledger primitives -/

theorem pyInsert_subset (l : List String) (x : String) : l ⊆ pyInsert l x := by
  unfold pyInsert
  split
  · exact fun a ha => ha
  · exact fun a ha => List.mem_append_left _ ha

theorem mem_pyInsert (l : List String) (x : String) : x ∈ pyInsert l x := by
  unfold pyInsert
  split
  · assumption
  · exact List.mem_append_right _ (List.mem_singleton.mpr rfl)

/-! ## Structural lemmas about the version classifier -/

theorem analyze_version_classify_spec (cfg : Config) (st : SageState)
    (pn vn : String) (scan_objs : List JVal) (vi : Dict) (st' : SageState)
    (h : analyze_version_classify cfg st pn vn scan_objs vi = some st') :
    ∃ app, st' = { st with suspect_versions := st.suspect_versions ++ app } := by
  unfold analyze_version_classify at h
  split at h
  · exact ⟨_, (Option.some.inj h).symm⟩
  · split at h
    · split at h
      · exact ⟨_, (Option.some.inj h).symm⟩
      · exact absurd h (by simp)
    · obtain rfl := Option.some.inj h
      exact ⟨[], by simp⟩

theorem analyze_version_spec (cfg : Config) (hub : Hub) (st : SageState)
    (pn : String) (v : JVal) (st' : SageState)
    (h : analyze_version cfg hub st pn v = some st') :
    st' = st ∨ ∃ app key,
      st' = { st with suspect_versions := st.suspect_versions ++ app,
                      reviewed_versions := pyInsert st.reviewed_versions key } := by
  unfold analyze_version at h
  split at h
  · exact absurd h (by simp)
  · split at h
    · exact Or.inl (Option.some.inj h).symm
    · split at h
      · exact absurd h (by simp)
      · split at h
        · exact absurd h (by simp)
        · split at h
          · exact absurd h (by simp)
          · next st1 hst1 =>
            obtain ⟨app, rfl⟩ := analyze_version_classify_spec _ _ _ _ _ _ _ hst1
            obtain rfl := (Option.some.inj h).symm
            exact Or.inr ⟨app, _, rfl⟩

end Sage

namespace Sage

/-! ## Inversion and preservation lemmas for the engine -/

theorem analyze_project_classify_spec (cfg : Config) (st : SageState)
    (pn : String) (version_objs : List JVal) (pi : Dict) (st' : SageState)
    (h : analyze_project_classify cfg st pn version_objs pi = some st') :
    ∃ app, st' = { st with suspect_projects := st.suspect_projects ++ app } := by
  unfold analyze_project_classify at h
  split at h
  · exact ⟨_, (Option.some.inj h).symm⟩
  · split at h
    · split at h
      · exact ⟨_, (Option.some.inj h).symm⟩
      · exact absurd h (by simp)
    · obtain rfl := Option.some.inj h
      exact ⟨[], by simp⟩

/-- Inversion of `analyze_version` on the path where the scan fetch
succeeded. -/
theorem analyze_version_decomp (cfg : Config) (hub : Hub) (st : SageState)
    (pn : String) (v : JVal) (scans : JVal) (st' : SageState)
    (hcl : hub.codelocations v = some scans)
    (h : analyze_version cfg hub st pn v = some st') :
    ∃ nv l vi st1, getFieldJ v "versionName" = some nv ∧
      pagedItemsLenient scans = some l ∧
      copyCommonJ v [("project_name", JVal.str pn)] = some vi ∧
      analyze_version_classify cfg st pn (pyStr nv) l vi = some st1 ∧
      st' = { st1 with reviewed_versions :=
        (pyInsert st1.reviewed_versions (pn ++ ":" ++ pyStr nv)) } := by
  unfold analyze_version at h
  split at h
  · exact absurd h (by simp)
  · next nv hnv =>
    split at h
    · next hnone => rw [hcl] at hnone; cases hnone
    · next scans' hscans' =>
      rw [hcl] at hscans'
      obtain rfl := Option.some.inj hscans'
      split at h
      · exact absurd h (by simp)
      · next l hl =>
        split at h
        · exact absurd h (by simp)
        · next vi hvi =>
          split at h
          · exact absurd h (by simp)
          · next st1 hst1 =>
            exact ⟨nv, l, vi, st1, hnv, hl, hvi, hst1, (Option.some.inj h).symm⟩

/-- Models `analyze_version` when the scan fetch raises: the state is returned
unchanged (sage.py lines 78-82). -/
theorem analyze_version_error (cfg : Config) (hub : Hub) (st : SageState)
    (pn : String) (v : JVal) (nv : JVal)
    (hnv : getFieldJ v "versionName" = some nv)
    (hcl : hub.codelocations v = none) :
    analyze_version cfg hub st pn v = some st := by
  simp [analyze_version, hnv, hcl]

/-- Inversion of `analyze_project` on the path where the version-list fetch
succeeded. -/
theorem analyze_project_decomp (cfg : Config) (hub : Hub) (st : SageState)
    (p : JVal) (vs : JVal) (st' : SageState)
    (hv : hub.versions p = some vs)
    (h : analyze_project cfg hub st p = some st') :
    ∃ nv l pi st1 st2, getFieldJ p "name" = some nv ∧
      pagedItemsLenient vs = some l ∧
      copyCommonJ p [] = some pi ∧
      analyze_project_classify cfg st (pyStr nv) l pi = some st1 ∧
      processVersions cfg hub st1 (pyStr nv) l = some st2 ∧
      st' = { st2 with reviewed_projects :=
        (pyInsert st2.reviewed_projects (pyStr nv)) } := by
  unfold analyze_project at h
  split at h
  · exact absurd h (by simp)
  · next nv hnv =>
    split at h
    · next hnone => rw [hv] at hnone; cases hnone
    · next vs' hvs' =>
      rw [hv] at hvs'
      obtain rfl := Option.some.inj hvs'
      split at h
      · exact absurd h (by simp)
      · next l hl =>
        split at h
        · exact absurd h (by simp)
        · next pi hpi =>
          split at h
          · exact absurd h (by simp)
          · next st1 hst1 =>
            split at h
            · exact absurd h (by simp)
            · next st2 hst2 =>
              exact ⟨nv, l, pi, st1, st2, hnv, hl, hpi, hst1, hst2,
                (Option.some.inj h).symm⟩

/-- Models `analyze_project` when the version-list fetch raises: the state is
returned unchanged — in particular the project is *not* added to the ledger
(sage.py lines 134-137). -/
theorem analyze_project_error (cfg : Config) (hub : Hub) (st : SageState)
    (p : JVal) (nv : JVal)
    (hnv : getFieldJ p "name" = some nv)
    (hv : hub.versions p = none) :
    analyze_project cfg hub st p = some st := by
  simp [analyze_project, hnv, hv]

end Sage

namespace Sage

/-- What one pass of the version loop can do to the state: only
`suspect_versions` and `reviewed_versions` are touched, and the ledger only
grows. -/
theorem processVersions_fields (cfg : Config) (hub : Hub) (pn : String)
    (vs : List JVal) :
    ∀ st st', processVersions cfg hub st pn vs = some st' →
      st'.other_issues = st.other_issues ∧
      st'.suspect_projects = st.suspect_projects ∧
      st'.unmapped_scans = st.unmapped_scans ∧
      st'.reviewed_projects = st.reviewed_projects ∧
      st.reviewed_versions ⊆ st'.reviewed_versions := by
  induction vs with
  | nil =>
    intro st st' h
    obtain rfl := Option.some.inj h
    exact ⟨rfl, rfl, rfl, rfl, fun a ha => ha⟩
  | cons v rest ih =>
    intro st st' h
    unfold processVersions at h
    split at h
    · exact absurd h (by simp)
    · next nv hnv =>
      split at h
      · exact absurd h (by simp)
      · next stm hstm =>
        have hmid : stm = st ∨ ∃ app key,
            stm = { st with suspect_versions := st.suspect_versions ++ app,
                            reviewed_versions := pyInsert st.reviewed_versions key } := by
          by_cases hmem : pn ++ ":" ++ pyStr nv ∈ st.reviewed_versions
          · rw [if_pos hmem] at hstm
            exact Or.inl (Option.some.inj hstm).symm
          · rw [if_neg hmem] at hstm
            exact analyze_version_spec cfg hub st pn v stm hstm
        obtain ⟨h1, h2, h3, h4, h5⟩ := ih stm st' h
        rcases hmid with rfl | ⟨app, key, rfl⟩
        · exact ⟨h1, h2, h3, h4, h5⟩
        · exact ⟨h1, h2, h3, h4,
            fun a ha => h5 (pyInsert_subset _ _ ha)⟩

/-- What `analyze_project` can do to the state: `other_issues` and the
unmapped-scan snapshot are untouched, and both ledgers only grow. -/
theorem analyze_project_fields (cfg : Config) (hub : Hub) (st : SageState)
    (p : JVal) (st' : SageState)
    (h : analyze_project cfg hub st p = some st') :
    st'.other_issues = st.other_issues ∧
    st'.unmapped_scans = st.unmapped_scans ∧
    st.reviewed_projects ⊆ st'.reviewed_projects ∧
    st.reviewed_versions ⊆ st'.reviewed_versions := by
  cases hv : hub.versions p with
  | none =>
    unfold analyze_project at h
    split at h
    · exact absurd h (by simp)
    · rw [hv] at h
      obtain rfl := Option.some.inj h
      exact ⟨rfl, rfl, fun a ha => ha, fun a ha => ha⟩
  | some vs =>
    obtain ⟨nv, l, pi, st1, st2, hnv, hl, hpi, hst1, hst2, rfl⟩ :=
      analyze_project_decomp cfg hub st p vs st' hv h
    obtain ⟨app, rfl⟩ := analyze_project_classify_spec cfg st (pyStr nv) l pi st1 hst1
    obtain ⟨h1, h2, h3, h4, h5⟩ := processVersions_fields cfg hub (pyStr nv) l _ st2 hst2
    refine ⟨h1, h3, ?_, h5⟩
    intro a ha
    exact pyInsert_subset _ _ (h4 ▸ ha)

/-- What the project loop can do to the state: `other_issues` and the
unmapped-scan snapshot are untouched, and both ledgers only grow. -/
theorem processProjects_fields (cfg : Config) (hub : Hub) (ps : List JVal) :
    ∀ st st', processProjects cfg hub st ps = some st' →
      st'.other_issues = st.other_issues ∧
      st'.unmapped_scans = st.unmapped_scans ∧
      st.reviewed_projects ⊆ st'.reviewed_projects ∧
      st.reviewed_versions ⊆ st'.reviewed_versions := by
  induction ps with
  | nil =>
    intro st st' h
    obtain rfl := Option.some.inj h
    exact ⟨rfl, rfl, fun a ha => ha, fun a ha => ha⟩
  | cons p rest ih =>
    intro st st' h
    unfold processProjects at h
    split at h
    · exact absurd h (by simp)
    · next nv hnv =>
      split at h
      · exact absurd h (by simp)
      · next stm hstm =>
        obtain ⟨i1, i2, i3, i4⟩ := ih stm st' h
        by_cases hmem : pyStr nv ∈ st.reviewed_projects
        · rw [if_pos hmem] at hstm
          obtain rfl := Option.some.inj hstm
          exact ⟨i1, i2, i3, i4⟩
        · rw [if_neg hmem] at hstm
          obtain ⟨m1, m2, m3, m4⟩ := analyze_project_fields cfg hub st p stm hstm
          exact ⟨i1.trans m1, i2.trans m2,
            fun a ha => i3 (m3 ha), fun a ha => i4 (m4 ha)⟩

end Sage

namespace Sage

/-- On the path where the version-list fetch succeeded, a successful
`analyze_project` has put the project's name in the ledger. -/
theorem analyze_project_success_name (cfg : Config) (hub : Hub) (st : SageState)
    (p : JVal) (vs : JVal) (st' : SageState)
    (hv : hub.versions p = some vs)
    (h : analyze_project cfg hub st p = some st') :
    ∃ nv, getFieldJ p "name" = some nv ∧ pyStr nv ∈ st'.reviewed_projects := by
  obtain ⟨nv, l, pi, st1, st2, hnv, hl, hpi, hst1, hst2, rfl⟩ :=
    analyze_project_decomp cfg hub st p vs st' hv h
  exact ⟨nv, hnv, mem_pyInsert _ _⟩

/-- After a completed project loop, every listed project either ended up in
the ledger or had its version-list fetch raise. -/
theorem processProjects_names (cfg : Config) (hub : Hub) (ps : List JVal) :
    ∀ st st', processProjects cfg hub st ps = some st' →
      ∀ p ∈ ps, ∃ nv, getFieldJ p "name" = some nv ∧
        (pyStr nv ∈ st'.reviewed_projects ∨ hub.versions p = none) := by
  induction ps with
  | nil => intro st st' _ p hp; cases hp
  | cons q rest ih =>
    intro st st' h p hp
    unfold processProjects at h
    split at h
    · exact absurd h (by simp)
    · next nv hnv =>
      split at h
      · exact absurd h (by simp)
      · next stm hstm =>
        rcases List.mem_cons.mp hp with rfl | hrest
        · refine ⟨nv, hnv, ?_⟩
          cases hv : hub.versions p with
          | none => exact Or.inr rfl
          | some vs =>
            left
            have hsub : stm.reviewed_projects ⊆ st'.reviewed_projects :=
              (processProjects_fields cfg hub rest stm st' h).2.2.1
            by_cases hmem : pyStr nv ∈ st.reviewed_projects
            · rw [if_pos hmem] at hstm
              obtain rfl := Option.some.inj hstm
              exact hsub hmem
            · rw [if_neg hmem] at hstm
              obtain ⟨nv', hnv', hmem'⟩ :=
                analyze_project_success_name cfg hub st p vs stm hv hstm
              rw [hnv] at hnv'
              obtain rfl := Option.some.inj hnv'
              exact hsub hmem'
        · exact ih stm st' h p hrest

/-- If every listed project is already in the ledger or has a raising
version-list fetch, the project loop is a no-op. -/
theorem processProjects_fixpoint (cfg : Config) (hub : Hub) (ps : List JVal)
    (st : SageState)
    (hall : ∀ p ∈ ps, ∃ nv, getFieldJ p "name" = some nv ∧
      (pyStr nv ∈ st.reviewed_projects ∨ hub.versions p = none)) :
    processProjects cfg hub st ps = some st := by
  induction ps with
  | nil => rfl
  | cons q rest ih =>
    obtain ⟨nv, hnv, hcase⟩ := hall q (List.mem_cons_self q rest)
    have hrest : ∀ p ∈ rest, ∃ nv, getFieldJ p "name" = some nv ∧
        (pyStr nv ∈ st.reviewed_projects ∨ hub.versions p = none) :=
      fun p hp => hall p (List.mem_cons_of_mem q hp)
    by_cases hmem : pyStr nv ∈ st.reviewed_projects
    · have hr := ih hrest
      simp [processProjects, hnv, hmem, hr]
    · rcases hcase with hc | hc
      · exact absurd hc hmem
      · have hr := ih hrest
        have he := analyze_project_error cfg hub st q nv hnv hc
        simp [processProjects, hnv, hmem, he, hr]

/-- Inversion of a successful `analyze` run: the project listing parsed, and
the final state is the result of the project loop on the pre-loop state. -/
theorem analyze_decomp (cfg : Config) (hub : Hub) (st0 : SageState)
    (st' : SageState) (h : analyze cfg hub st0 = some st') :
    ∃ l stPre, strictItems hub.projects = some l ∧
      ensureUnmapped hub (slowCheck cfg hub st0) = some stPre ∧
      processProjects cfg hub stPre l = some st' := by
  unfold analyze at h
  split at h
  · exact absurd h (by simp)
  · next l hl =>
    split at h
    · exact absurd h (by simp)
    · next stPre hstPre => exact ⟨l, stPre, hl, hstPre, h⟩

/-- After any successful run, the unmapped-scan snapshot is non-empty
(it is fetched once when absent and never cleared). -/
theorem analyze_unmapped_nonempty (cfg : Config) (hub : Hub) (st0 : SageState)
    (st' : SageState) (h : analyze cfg hub st0 = some st') :
    isEmptyPyDict st'.unmapped_scans = false := by
  obtain ⟨l, stPre, hl, hstPre, hloop⟩ := analyze_decomp cfg hub st0 st' h
  have hpre : st'.unmapped_scans = stPre.unmapped_scans :=
    (processProjects_fields cfg hub l stPre st' hloop).2.1
  rw [hpre]
  unfold ensureUnmapped at hstPre
  split at hstPre
  · split at hstPre
    · exact absurd hstPre (by simp)
    · next ums hums =>
      obtain rfl := Option.some.inj hstPre
      simp [isEmptyPyDict]
  · next hne =>
    obtain rfl := Option.some.inj hstPre
    simpa using hne

end Sage

namespace Sage

theorem slowCheck_fields (cfg : Config) (hub : Hub) (st0 : SageState) :
    (slowCheck cfg hub st0).suspect_projects = st0.suspect_projects ∧
    (slowCheck cfg hub st0).suspect_versions = st0.suspect_versions ∧
    (slowCheck cfg hub st0).unmapped_scans = st0.unmapped_scans ∧
    (slowCheck cfg hub st0).reviewed_projects = st0.reviewed_projects ∧
    (slowCheck cfg hub st0).reviewed_versions = st0.reviewed_versions := by
  unfold slowCheck
  split <;> exact ⟨rfl, rfl, rfl, rfl, rfl⟩

theorem ensureUnmapped_fields (hub : Hub) (st1 st2 : SageState)
    (h : ensureUnmapped hub st1 = some st2) :
    st2.other_issues = st1.other_issues ∧
    st2.suspect_projects = st1.suspect_projects ∧
    st2.suspect_versions = st1.suspect_versions ∧
    st2.reviewed_projects = st1.reviewed_projects ∧
    st2.reviewed_versions = st1.reviewed_versions := by
  unfold ensureUnmapped at h
  split at h
  · split at h
    · exact absurd h (by simp)
    · obtain rfl := Option.some.inj h
      exact ⟨rfl, rfl, rfl, rfl, rfl⟩
  · obtain rfl := Option.some.inj h
    exact ⟨rfl, rfl, rfl, rfl, rfl⟩

/-- Both ledgers only grow across a whole `analyze` run. -/
theorem analyze_ledger_mono (cfg : Config) (hub : Hub) (st0 st' : SageState)
    (h : analyze cfg hub st0 = some st') :
    st0.reviewed_projects ⊆ st'.reviewed_projects ∧
    st0.reviewed_versions ⊆ st'.reviewed_versions := by
  obtain ⟨l, stPre, hl, hstPre, hloop⟩ := analyze_decomp cfg hub st0 st' h
  obtain ⟨_, _, _, e1, e2⟩ := ensureUnmapped_fields hub _ stPre hstPre
  obtain ⟨_, _, _, s1, s2⟩ := slowCheck_fields cfg hub st0
  obtain ⟨_, _, p1, p2⟩ := processProjects_fields cfg hub l stPre st' hloop
  constructor
  · intro a ha
    exact p1 (by rw [e1, s1]; exact ha)
  · intro a ha
    exact p2 (by rw [e2, s2]; exact ha)

/-- A second run on the final state of a completed run is a no-op, provided
the second project listing is not slow. -/
theorem analyze_fixpoint (cfg : Config) (hub : Hub) (st0 st1 : SageState)
    (hel : hub.projectsElapsed ≤ cfg.max_time_to_retrieve_projects)
    (h : analyze cfg hub st0 = some st1) :
    analyze cfg hub st1 = some st1 := by
  obtain ⟨l, stPre, hl, hstPre, hloop⟩ := analyze_decomp cfg hub st0 st1 h
  have hall := processProjects_names cfg hub l stPre st1 hloop
  have hslow : slowCheck cfg hub st1 = st1 := by
    unfold slowCheck
    rw [if_neg (Nat.not_lt.mpr hel)]
  have hemp : isEmptyPyDict st1.unmapped_scans = false :=
    analyze_unmapped_nonempty cfg hub st0 st1 h
  have hens : ensureUnmapped hub st1 = some st1 := by
    simp [ensureUnmapped, hemp]
  have hfix := processProjects_fixpoint cfg hub l st1 hall
  simp [analyze, hl, hslow, hens, hfix]

/-! ## The ledgers stay duplicate-free (set representation invariant) -/

theorem pyInsert_nodup (l : List String) (x : String) (h : l.Nodup) :
    (pyInsert l x).Nodup := by
  unfold pyInsert
  split
  · exact h
  · next hmem => simp [List.nodup_append, h, hmem]

theorem analyze_version_nodup (cfg : Config) (hub : Hub) (st : SageState)
    (pn : String) (v : JVal) (st' : SageState)
    (h : analyze_version cfg hub st pn v = some st')
    (hn : NodupLedgers st) : NodupLedgers st' := by
  rcases analyze_version_spec cfg hub st pn v st' h with rfl | ⟨app, key, rfl⟩
  · exact hn
  · exact ⟨hn.1, pyInsert_nodup _ _ hn.2⟩

theorem processVersions_nodup (cfg : Config) (hub : Hub) (pn : String)
    (vs : List JVal) :
    ∀ st st', processVersions cfg hub st pn vs = some st' →
      NodupLedgers st → NodupLedgers st' := by
  induction vs with
  | nil =>
    intro st st' h hn
    obtain rfl := Option.some.inj h
    exact hn
  | cons v rest ih =>
    intro st st' h hn
    unfold processVersions at h
    split at h
    · exact absurd h (by simp)
    · next nv hnv =>
      split at h
      · exact absurd h (by simp)
      · next stm hstm =>
        refine ih stm st' h ?_
        by_cases hmem : pn ++ ":" ++ pyStr nv ∈ st.reviewed_versions
        · rw [if_pos hmem] at hstm
          obtain rfl := Option.some.inj hstm
          exact hn
        · rw [if_neg hmem] at hstm
          exact analyze_version_nodup cfg hub st pn v stm hstm hn

theorem analyze_project_nodup (cfg : Config) (hub : Hub) (st : SageState)
    (p : JVal) (st' : SageState)
    (h : analyze_project cfg hub st p = some st')
    (hn : NodupLedgers st) : NodupLedgers st' := by
  cases hv : hub.versions p with
  | none =>
    unfold analyze_project at h
    split at h
    · exact absurd h (by simp)
    · rw [hv] at h
      obtain rfl := Option.some.inj h
      exact hn
  | some vs =>
    obtain ⟨nv, l, pi, st1, st2, hnv, hl, hpi, hst1, hst2, rfl⟩ :=
      analyze_project_decomp cfg hub st p vs st' hv h
    obtain ⟨app, rfl⟩ := analyze_project_classify_spec cfg st (pyStr nv) l pi st1 hst1
    have h2 : NodupLedgers st2 :=
      processVersions_nodup cfg hub (pyStr nv) l _ st2 hst2 ⟨hn.1, hn.2⟩
    exact ⟨pyInsert_nodup _ _ h2.1, h2.2⟩

theorem processProjects_nodup (cfg : Config) (hub : Hub) (ps : List JVal) :
    ∀ st st', processProjects cfg hub st ps = some st' →
      NodupLedgers st → NodupLedgers st' := by
  induction ps with
  | nil =>
    intro st st' h hn
    obtain rfl := Option.some.inj h
    exact hn
  | cons p rest ih =>
    intro st st' h hn
    unfold processProjects at h
    split at h
    · exact absurd h (by simp)
    · next nv hnv =>
      split at h
      · exact absurd h (by simp)
      · next stm hstm =>
        refine ih stm st' h ?_
        by_cases hmem : pyStr nv ∈ st.reviewed_projects
        · rw [if_pos hmem] at hstm
          obtain rfl := Option.some.inj hstm
          exact hn
        · rw [if_neg hmem] at hstm
          exact analyze_project_nodup cfg hub st p stm hstm hn

theorem analyze_nodup (cfg : Config) (hub : Hub) (st0 st' : SageState)
    (h : analyze cfg hub st0 = some st') (hn : NodupLedgers st0) :
    NodupLedgers st' := by
  obtain ⟨l, stPre, hl, hstPre, hloop⟩ := analyze_decomp cfg hub st0 st' h
  obtain ⟨_, _, _, e1, e2⟩ := ensureUnmapped_fields hub _ stPre hstPre
  obtain ⟨_, _, _, s1, s2⟩ := slowCheck_fields cfg hub st0
  refine processProjects_nodup cfg hub l stPre st' hloop ?_
  constructor
  · rw [e1, s1]; exact hn.1
  · rw [e2, s2]; exact hn.2

end Sage

namespace Sage

/-! ## Checkpoint round trip -/

theorem unStrList_map (l : List String) : unStrList (l.map JVal.str) = some l := by
  induction l with
  | nil => rfl
  | cons s rest ih => simp [unStrList, ih]

theorem unObjList_map (l : List Dict) : unObjList (l.map JVal.obj) = some l := by
  induction l with
  | nil => rfl
  | cons d rest ih => simp [unObjList, ih]

/-- Loading the document written by `_write_results` reconstitutes the state,
for any state whose ledger lists are duplicate-free (which is an invariant
of the set representation). -/
theorem loadState_resultsDoc (u : String) (st : SageState)
    (hp : st.reviewed_projects.Nodup) (hv : st.reviewed_versions.Nodup) :
    loadState (resultsDoc u st) = some st := by
  have hdp : st.reviewed_projects.dedup = st.reviewed_projects :=
    List.dedup_eq_self.mpr hp
  have hdv : st.reviewed_versions.dedup = st.reviewed_versions :=
    List.dedup_eq_self.mpr hv
  simp [loadState, resultsDoc, dlookup, unStrList_map, unObjList_map, hdp, hdv]

end Sage

namespace Sage

/-! ## Version-classifier boundary and partition lemmas -/

/-- At exactly the threshold (and at least one scan) the classifier emits
nothing. -/
theorem analyze_version_classify_at_max (cfg : Config) (st : SageState)
    (pn vn : String) (l : List JVal) (vi : Dict)
    (hlen : l.length = cfg.max_scans_per_version) (hpos : 1 ≤ l.length) :
    analyze_version_classify cfg st pn vn l vi = some st := by
  unfold analyze_version_classify
  rw [if_neg (by omega), if_neg (by omega)]

/-- Inversion of the classifier branch above the threshold. -/
theorem analyze_version_classify_over (cfg : Config) (st : SageState)
    (pn vn : String) (l : List JVal) (vi : Dict) (st' : SageState)
    (hgt : cfg.max_scans_per_version < l.length)
    (h : analyze_version_classify cfg st pn vn l vi = some st') :
    ∃ sig bom, buildScanInfos pn vn "scan" l = some sig ∧
      buildScanInfos pn vn "bom" l = some bom ∧
      st' = { st with suspect_versions := st.suspect_versions ++
        [dset (dset (dset vi
          "message" (JVal.str (remove_white_space
            (tooManyScansMessage pn vn l.length cfg.max_versions_per_project))))
          "signature_scan_info" (JVal.arr (sig.map JVal.obj)))
          "bom_scan_info" (JVal.arr (bom.map JVal.obj))] } := by
  unfold analyze_version_classify at h
  rw [if_neg (by omega), if_pos hgt] at h
  split at h
  · next sig bom hsig hbom =>
    exact ⟨sig, bom, hsig, hbom, (Option.some.inj h).symm⟩
  · exact absurd h (by simp)

/-- The `name` field survives `_copy_common_attributes` untouched when the
overrides do not rebind it. -/
theorem copyCommonJ_name (s : JVal) (kw : List (String × JVal)) (info : Dict)
    (n : String) (hn : scanNameStr s = some n)
    (hkw : lookupLast kw "name" = none)
    (hc : copyCommonJ s kw = some info) :
    dlookup info "name" = some (JVal.str n) := by
  cases s with
  | obj d =>
    have hd : dlookup d "name" = some (JVal.str n) := by
      cases hD : dlookup d "name" with
      | none => simp [scanNameStr, getFieldJ, hD] at hn
      | some w =>
        cases w with
        | str m =>
          simp [scanNameStr, getFieldJ, hD] at hn
          rw [hn]
        | num m => simp [scanNameStr, getFieldJ, hD] at hn
        | obj o => simp [scanNameStr, getFieldJ, hD] at hn
        | arr a => simp [scanNameStr, getFieldJ, hD] at hn
        | null => simp [scanNameStr, getFieldJ, hD] at hn
    have hc' : copy_common_attributes d kw = some info := hc
    cases hhref : getHref d with
    | none =>
      have hnone : copy_common_attributes d kw = none := by
        unfold copy_common_attributes
        rw [hhref]
      rw [hnone] at hc'
      cases hc'
    | some href =>
      obtain ⟨r, hr, hspec⟩ := copy_common_attributes_spec d kw href hhref
      rw [hr] at hc'
      obtain rfl := Option.some.inj hc'
      have hlook := hspec "name"
      rw [hkw] at hlook
      simpa [COMMON_ATTRIBUTES, hd] using hlook
  | str _ => exact absurd hn (by simp [scanNameStr, getFieldJ])
  | num _ => exact absurd hn (by simp [scanNameStr, getFieldJ])
  | arr _ => exact absurd hn (by simp [scanNameStr, getFieldJ])
  | null => exact absurd hn (by simp [scanNameStr, getFieldJ])

/-- A successful bucket construction determines the scan names. -/
theorem buildScanInfos_scanNames (pn vn suffix : String) (l : List JVal)
    (infos : List Dict) (h : buildScanInfos pn vn suffix l = some infos) :
    ∃ ns, scanNames l = some ns := by
  induction l generalizing infos with
  | nil => exact ⟨[], rfl⟩
  | cons s rest ih =>
    unfold buildScanInfos at h
    split at h
    · exact absurd h (by simp)
    · next n hn =>
      split at h
      · split at h
        · exact absurd h (by simp)
        · next info hinfo =>
          split at h
          · exact absurd h (by simp)
          · next tail htail =>
            obtain ⟨ns, hns⟩ := ih tail htail
            exact ⟨n :: ns, by simp [scanNames, hn, hns]⟩
      · obtain ⟨ns, hns⟩ := ih infos h
        exact ⟨n :: ns, by simp [scanNames, hn, hns]⟩

/-- The names stored in a bucket are exactly the scan names with the bucket's
suffix, in order. -/
theorem buildScanInfos_names (pn vn suffix : String)
    (hsuffix : suffix = "scan" ∨ suffix = "bom") (l : List JVal)
    (ns : List String) (infos : List Dict)
    (hns : scanNames l = some ns)
    (h : buildScanInfos pn vn suffix l = some infos) :
    jvalNames (infos.map JVal.obj) = some (ns.filter (fun n => pyEndsWith n suffix)) := by
  induction l generalizing ns infos with
  | nil =>
    obtain rfl := Option.some.inj h.symm
    obtain rfl : ns = [] := by
      unfold scanNames at hns
      exact (Option.some.inj hns).symm
    rfl
  | cons s rest ih =>
    unfold scanNames at hns
    split at hns
    · exact absurd hns (by simp)
    · next n hn =>
      split at hns
      · exact absurd hns (by simp)
      · next t ht =>
        obtain rfl := (Option.some.inj hns).symm
        unfold buildScanInfos at h
        split at h
        · next hnone => rw [hn] at hnone; cases hnone
        · next nm hnm =>
          rw [hn] at hnm
          obtain rfl := Option.some.inj hnm
          split at h
          · next hends =>
            split at h
            · exact absurd h (by simp)
            · next info hinfo =>
              split at h
              · exact absurd h (by simp)
              · next tail htail =>
                obtain rfl := (Option.some.inj h).symm
                have hname : dlookup info "name" = some (JVal.str n) := by
                  refine copyCommonJ_name s _ info n hn ?_ hinfo
                  rcases hsuffix with rfl | rfl <;> rfl
                have htl := ih t tail ht htail
                simp [jvalNames, getFieldJ, hname, htl, List.filter_cons, hends]
          · next hends =>
            have htl := ih t infos ht h
            simp [htl, List.filter_cons, hends]

end Sage

namespace Sage

/-! ## Claim theorems -/

/-- C1: the claim says that when a project's version list is fetched
successfully but the scan fetch of one of its versions fails, neither the
project nor the version is added to the ReviewLedger, so a resumed run
retries the version.  The code contradicts this for the project: over
`hub1` (one project `p1`, one version `v1`, version-list fetch succeeds,
scan fetch raises), one completed run puts `p1` into `reviewed_projects`
while `p1:v1` is (as the claim says) absent from `reviewed_versions`; a
second, resumed run over `hub2` — identical except that the scan fetch now
succeeds — is then a no-op: the project is skipped wholesale and the failed
version is never re-processed. -/
theorem c1_scan_failure_still_ledgers_project :
    analyze cfgD hub1 initState = some stC1 ∧
    hub1.versions (projV "p1") = some (JVal.obj [("items", JVal.arr [verV "v1"])]) ∧
    hub1.codelocations (verV "v1") = none ∧
    "p1" ∈ stC1.reviewed_projects ∧
    "p1:v1" ∉ stC1.reviewed_versions ∧
    analyze cfgD hub2 stC1 = some stC1 :=
  ⟨rfl, rfl, rfl, by decide, by decide, rfl⟩

/-- C2 counterexample: with an inventory whose project listing takes 61 s
(over the 60 s threshold), a completed run followed by an identical
resume-mode run is *not* finding-free: the resumed run appends a second
copy of the slow-listing OtherIssue. -/
theorem c2_counterexample_duplicate_other_issue :
    analyze cfgD hubSlow initState = some stSlow1 ∧
    loadState (resultsDoc "h" stSlow1) = some stSlow1 ∧
    analyze cfgD hubSlow stSlow1 = some stSlow2 ∧
    stSlow2.other_issues.length = stSlow1.other_issues.length + 1 :=
  ⟨rfl, rfl, rfl, rfl⟩

/-- C2 (amended): after a completed run from the fresh state, reloading the
written checkpoint reconstitutes the same state, and — provided the second
project listing does not exceed the time threshold — running `analyze`
again on it is a strict no-op: no new findings of any kind and an unchanged
ReviewLedger (so in particular every project reviewed in run 1 is skipped
in run 2). -/
theorem c2_amended_idempotent_resume (cfg : Config) (hub : Hub) (st1 : SageState)
    (hel : hub.projectsElapsed ≤ cfg.max_time_to_retrieve_projects)
    (h : analyze cfg hub initState = some st1) :
    loadState (resultsDoc hub.urlbase st1) = some st1 ∧
    analyze cfg hub st1 = some st1 := by
  have hn : NodupLedgers st1 :=
    analyze_nodup cfg hub initState st1 h ⟨List.nodup_nil, List.nodup_nil⟩
  exact ⟨loadState_resultsDoc hub.urlbase st1 hn.1 hn.2,
    analyze_fixpoint cfg hub initState st1 hel h⟩

/-- Witness for C2 (amended) at a concrete empty, fast inventory. -/
theorem c2_amended_witness :
    hubTrivial.projectsElapsed ≤ cfgD.max_time_to_retrieve_projects ∧
    analyze cfgD hubTrivial initState = some stTrivial ∧
    (loadState (resultsDoc hubTrivial.urlbase stTrivial) = some stTrivial ∧
     analyze cfgD hubTrivial stTrivial = some stTrivial) :=
  ⟨by decide, rfl,
    c2_amended_idempotent_resume cfgD hubTrivial stTrivial (by decide) rfl⟩

/-- C3: the ReviewLedger only grows: each of `analyze_version`,
`analyze_project` and `analyze` can only extend the two reviewed sets
(conjuncts 1-3); a version's composite key is added only after its
classifier has fully run — a failing scan fetch leaves the state exactly
unchanged (conjunct 4), while on the successful path the key is present
afterwards (conjunct 5); a project's name is likewise not added when its
version listing fails (conjunct 6) and on the successful path it is added
only on top of the state produced by running the whole version loop
(conjunct 7). -/
theorem c3_monotone_ledger (cfg : Config) (hub : Hub) :
    (∀ st pn v st', analyze_version cfg hub st pn v = some st' →
        st.reviewed_projects ⊆ st'.reviewed_projects ∧
        st.reviewed_versions ⊆ st'.reviewed_versions) ∧
    (∀ st p st', analyze_project cfg hub st p = some st' →
        st.reviewed_projects ⊆ st'.reviewed_projects ∧
        st.reviewed_versions ⊆ st'.reviewed_versions) ∧
    (∀ st st', analyze cfg hub st = some st' →
        st.reviewed_projects ⊆ st'.reviewed_projects ∧
        st.reviewed_versions ⊆ st'.reviewed_versions) ∧
    (∀ st pn v nv, getFieldJ v "versionName" = some nv →
        hub.codelocations v = none →
        analyze_version cfg hub st pn v = some st) ∧
    (∀ st pn v s st', hub.codelocations v = some s →
        analyze_version cfg hub st pn v = some st' →
        ∃ nv, getFieldJ v "versionName" = some nv ∧
          pn ++ ":" ++ pyStr nv ∈ st'.reviewed_versions) ∧
    (∀ st p nv, getFieldJ p "name" = some nv → hub.versions p = none →
        analyze_project cfg hub st p = some st) ∧
    (∀ st p vs st', hub.versions p = some vs →
        analyze_project cfg hub st p = some st' →
        ∃ nv l st1 st2, getFieldJ p "name" = some nv ∧
          pagedItemsLenient vs = some l ∧
          processVersions cfg hub st1 (pyStr nv) l = some st2 ∧
          st' = { st2 with reviewed_projects :=
            (pyInsert st2.reviewed_projects (pyStr nv)) }) := by
  refine ⟨?_, ?_, ?_, ?_, ?_, ?_, ?_⟩
  · intro st pn v st' h
    rcases analyze_version_spec cfg hub st pn v st' h with rfl | ⟨app, key, rfl⟩
    · exact ⟨fun a ha => ha, fun a ha => ha⟩
    · exact ⟨fun a ha => ha, pyInsert_subset _ _⟩
  · intro st p st' h
    exact ⟨(analyze_project_fields cfg hub st p st' h).2.2.1,
      (analyze_project_fields cfg hub st p st' h).2.2.2⟩
  · intro st st' h
    exact analyze_ledger_mono cfg hub st st' h
  · intro st pn v nv hnv hcl
    exact analyze_version_error cfg hub st pn v nv hnv hcl
  · intro st pn v s st' hcl h
    obtain ⟨nv, l, vi, st1, hnv, hl, hvi, hst1, rfl⟩ :=
      analyze_version_decomp cfg hub st pn v s st' hcl h
    exact ⟨nv, hnv, mem_pyInsert _ _⟩
  · intro st p nv hnv hv
    exact analyze_project_error cfg hub st p nv hnv hv
  · intro st p vs st' hv h
    obtain ⟨nv, l, pi, st1, st2, hnv, hl, hpi, hst1, hst2, rfl⟩ :=
      analyze_project_decomp cfg hub st p vs st' hv h
    exact ⟨nv, l, st1, st2, hnv, hl, hst2, rfl⟩

/-- Witness for C3: conjunct 4 (failed scan fetch leaves the state exactly
unchanged) at a concrete input. -/
theorem c3_witness :
    getFieldJ (verV "v1") "versionName" = some (JVal.str "v1") ∧
    hub1.codelocations (verV "v1") = none ∧
    analyze_version cfgD hub1 initState "p1" (verV "v1") = some initState :=
  ⟨rfl, rfl,
    (c3_monotone_ledger cfgD hub1).2.2.2.1 initState "p1" (verV "v1")
      (JVal.str "v1") rfl rfl⟩

end Sage

namespace Sage

/-- C4 counterexample: the claim says *every* paged result tolerates a
missing `items` field.  The unmapped-scan fetch does not: over an inventory
whose unmapped-scan result lacks `items` (everything else well-formed), the
whole run raises instead of proceeding with zero items. -/
theorem c4_counterexample_unmapped_items_required :
    analyze cfgD hubNoItemsUnmapped initState = none := rfl

/-- C4 (amended): absence of `items` is treated as zero items only for the
versions-per-project and scans-per-version results; for the scan list this
means the zero-scan classifier fires (conjunct 1) and for the version list
the zero-version classifier fires (conjunct 2).  For the project list
(conjunct 3) and the unmapped-scan list (conjunct 4) the `['items']`
indexing is unguarded and a missing field aborts the run. -/
theorem c4_amended_items_handling (cfg : Config) (hub : Hub) :
    (∀ st pn v nv d vi, getFieldJ v "versionName" = some nv →
        hub.codelocations v = some (JVal.obj d) →
        dlookup d "items" = none →
        copyCommonJ v [("project_name", JVal.str pn)] = some vi →
        analyze_version cfg hub st pn v = some
          { st with
            suspect_versions := (st.suspect_versions ++ [dset vi "message" (JVal.str (zeroScansMessage pn (pyStr nv)))]),
            reviewed_versions := (pyInsert st.reviewed_versions (pn ++ ":" ++ pyStr nv)) }) ∧
    (∀ st p nv d pi, getFieldJ p "name" = some nv →
        hub.versions p = some (JVal.obj d) →
        dlookup d "items" = none →
        copyCommonJ p [] = some pi →
        analyze_project cfg hub st p = some
          { st with
            suspect_projects := (st.suspect_projects ++ [dset pi "message" (JVal.str (zeroVersionsMessage (pyStr nv)))]),
            reviewed_projects := (pyInsert st.reviewed_projects (pyStr nv)) }) ∧
    (∀ st d, hub.projects = JVal.obj d → dlookup d "items" = none →
        analyze cfg hub st = none) ∧
    (∀ st d l, isEmptyPyDict st.unmapped_scans = true →
        hub.unmapped = JVal.obj d → dlookup d "items" = none →
        strictItems hub.projects = some l →
        analyze cfg hub st = none) := by
  refine ⟨?_, ?_, ?_, ?_⟩
  · intro st pn v nv d vi hnv hcl hitems hvi
    have hpaged : pagedItemsLenient (JVal.obj d) = some [] := by
      simp [pagedItemsLenient, hitems]
    have hcls : analyze_version_classify cfg st pn (pyStr nv) [] vi = some
        { st with suspect_versions := st.suspect_versions ++
            [dset vi "message" (JVal.str (zeroScansMessage pn (pyStr nv)))] } := rfl
    simp [analyze_version, hnv, hcl, hpaged, hvi, hcls]
  · intro st p nv d pi hnv hv hitems hpi
    have hpaged : pagedItemsLenient (JVal.obj d) = some [] := by
      simp [pagedItemsLenient, hitems]
    have hcls : analyze_project_classify cfg st (pyStr nv) [] pi = some
        { st with suspect_projects := st.suspect_projects ++
            [dset pi "message" (JVal.str (zeroVersionsMessage (pyStr nv)))] } := rfl
    simp [analyze_project, hnv, hv, hpaged, hpi, hcls, processVersions]
  · intro st d hp hitems
    have hstrict : strictItems hub.projects = none := by
      rw [hp]; simp [strictItems, hitems]
    simp [analyze, hstrict]
  · intro st d l hempty hu hitems hl
    have hgu : get_unmapped_scans hub = none := by
      rw [get_unmapped_scans, hu]
      simp [strictItems, hitems]
    have hse : (slowCheck cfg hub st).unmapped_scans = st.unmapped_scans :=
      (slowCheck_fields cfg hub st).2.2.1
    have hens : ensureUnmapped hub (slowCheck cfg hub st) = none := by
      simp [ensureUnmapped, hse, hempty, hgu]
    simp [analyze, hl, hens]

/-- Witness for C4 (amended), conjunct 1: a scan result shaped
`{"totalCount": 0}` (no `items`) is classified as a version with zero
scans. -/
theorem c4_amended_witness :
    getFieldJ (verV "v1") "versionName" = some (JVal.str "v1") ∧
    hubNoItemsScans.codelocations (verV "v1") =
      some (JVal.obj [("totalCount", JVal.num 0)]) ∧
    dlookup [("totalCount", JVal.num 0)] "items" = none ∧
    copyCommonJ (verV "v1") [("project_name", JVal.str "p1")] =
      some [("versionName", JVal.str "v1"), ("url", JVal.str "u"),
            ("project_name", JVal.str "p1")] ∧
    analyze_version cfgD hubNoItemsScans initState "p1" (verV "v1") = some
      { initState with
        suspect_versions := (initState.suspect_versions ++ [dset [("versionName", JVal.str "v1"), ("url", JVal.str "u"), ("project_name", JVal.str "p1")] "message" (JVal.str (zeroScansMessage "p1" (pyStr (JVal.str "v1"))))]),
        reviewed_versions := (pyInsert initState.reviewed_versions ("p1" ++ ":" ++ pyStr (JVal.str "v1"))) } :=
  ⟨rfl, rfl, rfl, rfl,
    (c4_amended_items_handling cfgD hubNoItemsScans).1 initState "p1" (verV "v1")
      (JVal.str "v1") [("totalCount", JVal.num 0)]
      [("versionName", JVal.str "v1"), ("url", JVal.str "u"),
       ("project_name", JVal.str "p1")] rfl rfl rfl rfl⟩

/-- C5 counterexample: the claim says the attribute extractor succeeds for
*every* entity record; but a record without a `_meta.href` locator raises
(`obj['_meta']['href']`, sage.py line 67) — here the empty record. -/
theorem c5_counterexample_empty_record :
    copy_common_attributes [] [] = none := rfl

/-- C5 (amended): for every entity record that *does* carry a
`_meta.href` locator, the extractor succeeds and returns a mapping holding
exactly: each override (last binding winning), then the `url` drawn from the
locator, then each recognized common field present in the source record;
every other key is absent. -/
theorem c5_amended_extractor_contract (obj : Dict) (kw : List (String × JVal))
    (href : JVal) (h : getHref obj = some href) :
    ∃ r, copy_common_attributes obj kw = some r ∧
      ∀ key, dlookup r key =
        match lookupLast kw key with
        | some w => some w
        | none =>
          if key = "url" then some href
          else if key ∈ COMMON_ATTRIBUTES then dlookup obj key else none :=
  copy_common_attributes_spec obj kw href h

/-- Witness for C5 (amended) at a record with a common field, a locator, an
unrecognized field, and overrides that collide with a common field. -/
theorem c5_amended_witness :
    getHref objC5 = some (JVal.str "u") ∧
    (∃ r, copy_common_attributes objC5 kwC5 = some r ∧
      ∀ key, dlookup r key =
        match lookupLast kwC5 key with
        | some w => some w
        | none =>
          if key = "url" then some (JVal.str "u")
          else if key ∈ COMMON_ATTRIBUTES then dlookup objC5 key else none) :=
  ⟨rfl, c5_amended_extractor_contract objC5 kwC5 (JVal.str "u") rfl⟩

end Sage

namespace Sage

/-- C6: the scan-count boundary.  For a version whose scan fetch succeeds:
with exactly `max_scans_per_version` scans (and at least one) no
SuspectVersion finding is appended; with one more, exactly one is. -/
theorem c6_scan_count_boundary (cfg : Config) (hub : Hub) (st : SageState)
    (pn : String) (v : JVal) (nv : JVal) (s : JVal) (l : List JVal)
    (st' : SageState)
    (hnv : getFieldJ v "versionName" = some nv)
    (hcl : hub.codelocations v = some s)
    (hl : pagedItemsLenient s = some l)
    (h : analyze_version cfg hub st pn v = some st') :
    (l.length = cfg.max_scans_per_version → 1 ≤ l.length →
      st'.suspect_versions = st.suspect_versions) ∧
    (l.length = cfg.max_scans_per_version + 1 →
      ∃ f, st'.suspect_versions = st.suspect_versions ++ [f]) := by
  obtain ⟨nv', l', vi, st1, hnv', hl', hvi, hst1, rfl⟩ :=
    analyze_version_decomp cfg hub st pn v s st' hcl h
  rw [hnv] at hnv'
  obtain rfl := Option.some.inj hnv'
  rw [hl] at hl'
  obtain rfl := Option.some.inj hl'
  constructor
  · intro hlen hpos
    have hcls := analyze_version_classify_at_max cfg st pn (pyStr nv) l vi hlen hpos
    rw [hcls] at hst1
    obtain rfl := Option.some.inj hst1
    rfl
  · intro hlen
    have hgt : cfg.max_scans_per_version < l.length := by omega
    obtain ⟨sig, bom, hsig, hbom, rfl⟩ :=
      analyze_version_classify_over cfg st pn (pyStr nv) l vi st1 hgt hst1
    exact ⟨_, rfl⟩

/-- Witness for C6 at the boundary: two scans against a threshold of two
produce no finding (only the ledger entry). -/
theorem c6_witness :
    analyze_version cfgC6 hubC6a initState "p1" (verV "v1") =
      some { initState with reviewed_versions := ["p1:v1"] } ∧
    ({ initState with reviewed_versions := ["p1:v1"] } : SageState).suspect_versions =
      initState.suspect_versions :=
  ⟨rfl,
    (c6_scan_count_boundary cfgC6 hubC6a initState "p1" (verV "v1")
      (JVal.str "v1")
      (JVal.obj [("items", JVal.arr [scanV "a-scan", scanV "b-bom"])])
      [scanV "a-scan", scanV "b-bom"]
      { initState with reviewed_versions := ["p1:v1"] }
      rfl rfl rfl rfl).1 rfl (by decide)⟩

/-- C7: the scan partition.  When the scan count exceeds the threshold, the
appended finding's `signature_scan_info` holds exactly the scans whose name
ends with "scan" and `bom_scan_info` exactly those whose name ends with
"bom" (read back through their `name` fields, in order); a scan matching
neither suffix appears in neither bucket. -/
theorem c7_scan_partition (cfg : Config) (hub : Hub) (st : SageState)
    (pn : String) (v : JVal) (s : JVal) (l : List JVal)
    (st' : SageState)
    (hcl : hub.codelocations v = some s)
    (hl : pagedItemsLenient s = some l)
    (hgt : cfg.max_scans_per_version < l.length)
    (h : analyze_version cfg hub st pn v = some st') :
    ∃ f ns sigArr bomArr,
      st'.suspect_versions = st.suspect_versions ++ [f] ∧
      scanNames l = some ns ∧
      dlookup f "signature_scan_info" = some (JVal.arr sigArr) ∧
      dlookup f "bom_scan_info" = some (JVal.arr bomArr) ∧
      jvalNames sigArr = some (ns.filter (fun n => pyEndsWith n "scan")) ∧
      jvalNames bomArr = some (ns.filter (fun n => pyEndsWith n "bom")) := by
  obtain ⟨nv', l', vi, st1, hnv', hl', hvi, hst1, rfl⟩ :=
    analyze_version_decomp cfg hub st pn v s st' hcl h
  rw [hl] at hl'
  obtain rfl := Option.some.inj hl'
  obtain ⟨sig, bom, hsig, hbom, rfl⟩ :=
    analyze_version_classify_over cfg st pn (pyStr nv') l vi st1 hgt hst1
  obtain ⟨ns, hns⟩ := buildScanInfos_scanNames pn (pyStr nv') "scan" l sig hsig
  refine ⟨_, ns, sig.map JVal.obj, bom.map JVal.obj, rfl, hns, ?_, ?_, ?_, ?_⟩
  · rw [dlookup_dset]
    simp [dlookup_dset]
  · rw [dlookup_dset]
    simp
  · exact buildScanInfos_names pn (pyStr nv') "scan" (Or.inl rfl) l ns sig hns hsig
  · exact buildScanInfos_names pn (pyStr nv') "bom" (Or.inr rfl) l ns bom hns hbom

/-- Witness for C7 at the spec's own example `["foo-scan","foo-bom","other"]`:
the signature bucket holds exactly `foo-scan`, the BOM bucket exactly
`foo-bom`, and `other` is in neither. -/
theorem c7_witness :
    analyze_version cfgC7 hubC7 initState "p1" (verV "v1") = some stC7 ∧
    (∃ f ns sigArr bomArr,
      stC7.suspect_versions = initState.suspect_versions ++ [f] ∧
      scanNames scansC7 = some ns ∧
      dlookup f "signature_scan_info" = some (JVal.arr sigArr) ∧
      dlookup f "bom_scan_info" = some (JVal.arr bomArr) ∧
      jvalNames sigArr = some (ns.filter (fun n => pyEndsWith n "scan")) ∧
      jvalNames bomArr = some (ns.filter (fun n => pyEndsWith n "bom"))) ∧
    scanNames scansC7 = some ["foo-scan", "foo-bom", "other"] ∧
    ["foo-scan", "foo-bom", "other"].filter (fun n => pyEndsWith n "scan") = ["foo-scan"] ∧
    ["foo-scan", "foo-bom", "other"].filter (fun n => pyEndsWith n "bom") = ["foo-bom"] :=
  by
  have h : analyze_version cfgC7 hubC7 initState "p1" (verV "v1") = some stC7 := by rfl
  exact ⟨h,
    c7_scan_partition cfgC7 hubC7 initState "p1" (verV "v1")
      (JVal.obj [("items", JVal.arr scansC7)]) scansC7 stC7
      rfl rfl (by decide) h,
    rfl, by decide, by decide⟩

/-- C8: checkpoint round trip.  Writing the analysis state with
`_write_results` and constructing the engine in resume mode on the written
document reconstitutes exactly the same state (the two ledger sequences,
serialized in whatever order the sets iterate, come back as the same sets —
here: any duplicate-free representation reloads to itself). -/
theorem c8_checkpoint_roundtrip (u : String) (st : SageState)
    (hp : st.reviewed_projects.Nodup) (hv : st.reviewed_versions.Nodup) :
    loadState (resultsDoc u st) = some st :=
  loadState_resultsDoc u st hp hv

/-- Witness for C8 at a state with a non-empty ledger and a non-trivial
unmapped snapshot. -/
theorem c8_witness :
    stC1.reviewed_projects.Nodup ∧ stC1.reviewed_versions.Nodup ∧
    loadState (resultsDoc "h" stC1) = some stC1 :=
  ⟨by decide, by decide, c8_checkpoint_roundtrip "h" stC1 (by decide) (by decide)⟩

/-- C9: the claim says an interruption signal persists the current state
and then propagates a fatal termination — no further inventory access, no
return of control.  The handler alone does persist and then raise
(conjunct 1: its effect trace is the checkpoint write of the current state
followed by the `OSError`).  But that `raise` materializes at the
interrupted instruction of the main run; when the signal lands during a
per-entity fetch — where a long run spends nearly all of its time — the
raising fetch is exactly what the bare `except:` at sage.py line 80
(resp. 136) catches, so the `OSError` is swallowed like a fetch failure
and the run continues.  Over `hub9` (signal during `v1`'s scan fetch,
current state `stMid9`): the run completes (conjunct 2), goes on to fetch
and classify `v2` — further inventory access after the interrupt
(conjunct 3) — ledgers the project (conjunct 4), loses `v1` entirely
(conjunct 5), and its final `_write_results` overwrites the handler's
checkpoint with a different ledger (conjunct 6). -/
theorem c9_interrupt_caught_by_bare_except :
    signal_handler_trace hub9 stMid9 =
      [Event.write (resultsDoc "h" stMid9), Event.raiseOSError] ∧
    analyze cfgD hub9 initState = some stFinal9 ∧
    "p1:v2" ∈ stFinal9.reviewed_versions ∧
    "p1" ∈ stFinal9.reviewed_projects ∧
    "p1:v1" ∉ stFinal9.reviewed_versions ∧
    stFinal9.reviewed_projects ≠ stMid9.reviewed_projects :=
  ⟨rfl, rfl, by decide, by decide, by decide, by decide⟩

end Sage

namespace Sage

set_option maxRecDepth 200000 in
/-- C10: when a version's scan count exceeds `max_scans_per_version`, the
synthesized message of the appended finding is the collapsed
too-many-scans template instantiated with `max_versions_per_project` as its
"maximum recommended" figure (conjunct 1); concretely, under a
configuration with `max_scans_per_version = 1` and
`max_versions_per_project = 77`, the message built for 2 scans quotes
"the maximum recommended versions of 77" and not "... of 1" (conjuncts 2
and 3). -/
theorem c10_message_quotes_max_versions (cfg : Config) (hub : Hub)
    (st : SageState) (pn : String) (v : JVal) (nv : JVal) (s : JVal)
    (l : List JVal) (st' : SageState)
    (hnv : getFieldJ v "versionName" = some nv)
    (hcl : hub.codelocations v = some s)
    (hl : pagedItemsLenient s = some l)
    (hgt : cfg.max_scans_per_version < l.length)
    (h : analyze_version cfg hub st pn v = some st') :
    (∃ f, st'.suspect_versions = st.suspect_versions ++ [f] ∧
      dlookup f "message" = some (JVal.str (remove_white_space
        (tooManyScansMessage pn (pyStr nv) l.length cfg.max_versions_per_project)))) ∧
    ("the maximum recommended versions of " ++ toString 77 ++ ".").toList <:+:
      (remove_white_space (tooManyScansMessage "P" "V" 2 77)).toList ∧
    ¬ (("the maximum recommended versions of " ++ toString 1 ++ ".").toList <:+:
      (remove_white_space (tooManyScansMessage "P" "V" 2 77)).toList) := by
  refine ⟨?_, by decide, by decide⟩
  obtain ⟨nv', l', vi, st1, hnv', hl', hvi, hst1, rfl⟩ :=
    analyze_version_decomp cfg hub st pn v s st' hcl h
  rw [hnv] at hnv'
  obtain rfl := Option.some.inj hnv'
  rw [hl] at hl'
  obtain rfl := Option.some.inj hl'
  obtain ⟨sig, bom, hsig, hbom, rfl⟩ :=
    analyze_version_classify_over cfg st pn (pyStr nv) l vi st1 hgt hst1
  refine ⟨_, rfl, ?_⟩
  rw [dlookup_dset]
  rw [if_neg (by decide)]
  rw [dlookup_dset]
  rw [if_neg (by decide)]
  rw [dlookup_dset]
  rw [if_pos rfl]

/-- Witness for C10 at `cfgC10`/`hubC10` (two scans, scan threshold 1,
version threshold 77): the finding's message is the collapsed template at
77. -/
theorem c10_witness :
    analyze_version cfgC10 hubC10 initState "p1" (verV "v1") = some stC10 ∧
    (∃ f, stC10.suspect_versions = initState.suspect_versions ++ [f] ∧
      dlookup f "message" = some (JVal.str (remove_white_space
        (tooManyScansMessage "p1" (pyStr (JVal.str "v1")) 2
          cfgC10.max_versions_per_project)))) := by
  have h : analyze_version cfgC10 hubC10 initState "p1" (verV "v1") = some stC10 := by rfl
  exact ⟨h,
    (c10_message_quotes_max_versions cfgC10 hubC10 initState "p1" (verV "v1")
      (JVal.str "v1")
      (JVal.obj [("items", JVal.arr [scanV "a-scan", scanV "b-bom"])])
      [scanV "a-scan", scanV "b-bom"] stC10
      rfl rfl rfl (by decide) h).1⟩

end Sage
